import Mathlib

/-! ## Verification of the ECE461_Team17_Phase2 scoring engine

Shallow embedding, in Lean 4, of the parts of the repository that the
specification's claims are about:

* the result/serialization model and net-score aggregation
  (`src/ndjson.py`, `NDJSONEncoder.encode`);
* the per-metric computations `LicenseMetric.compute` (`src/license.py`),
  `SizeScoreMetric.compute` (`src/size_score.py`),
  `TreeScoreMetric.compute` / `_extract_parent_models` / `_get_parent_score`
  (`src/tree_score.py`), and `ReviewednessMetric.compute` /
  `_parse_github_url` / `_fetch_pr_stats` (`src/reviewedness.py`);
* the module-level `GITHUB_TOKEN` check of `src/reviewedness.py`;
* the concurrent evaluator `compute_all_metrics` (module `concurrency`,
  whose source file is not in the repository snapshot; it is modelled from
  the specification, see `compute_all_metrics` below).

Embedding conventions:

* Python floats are modelled as exact rationals (`ℚ`); Python `round(x, n)`
  (round-half-to-even) is `pyRound n x` below.  All concrete values the
  theorems evaluate are exactly representable, away from binary-float ties.
* Python dicts that the code iterates are modelled as association lists in
  insertion order; dict lookup is first-match lookup.
* A Python function that can raise is modelled with `Except String`, the
  error string describing the exception; functions whose bodies are wrapped
  in a catch-all `try/except` are modelled as total functions.
* Wall-clock time is modelled by an explicit `elapsed` parameter holding the
  measured duration in milliseconds.
* Network and storage collaborators are injected as explicit arguments
  (an oracle for GitHub commit pages, a lookup function for stored package
  scores), mirroring the dependency injection performed by `app.py`.
-/

/-- The value carried by a `MetricResult` (`metric.py` / `ndjson.py`):
a Python `float`, a Python `int`, or a per-device mapping of floats
(`size_score.py`).  The distinction between `float` and `int` matters
because `NDJSONEncoder.encode` tests `isinstance(value, float)`. -/
inductive MValue where
  | fl (q : ℚ)
  | iv (n : ℤ)
  | mp (m : List (String × ℚ))
  deriving DecidableEq

/-- A value appearing in a `MetricResult.details` mapping. -/
inductive DVal where
  | dstr (s : String)
  | dnum (q : ℚ)
  | dint (n : ℤ)
  | dlist (l : List ℚ)
  | dnone
  deriving DecidableEq

/-- Modelled from the spec: `metric.py` is not in the repository snapshot
(only its callers and tests are).  §3 of the spec defines `MetricResult` as
`{name: string, value: number | map<string,number> | sentinel,
details: mapping, latency_ms: integer ≥ 0}`. -/
structure MetricResult where
  name : String
  value : MValue
  details : List (String × DVal)
  latency_ms : ℕ
  deriving DecidableEq

/-- Python's `round` to an integer: round half to even (banker's rounding),
on the exact rational. -/
def pyRoundInt (q : ℚ) : ℤ :=
  let n := ⌊q⌋
  let frac := q - n
  if frac < 1/2 then n
  else if 1/2 < frac then n + 1
  else if Even n then n else n + 1

/-- Python's `round(q, d)` on the exact rational. -/
def pyRound (d : ℕ) (q : ℚ) : ℚ :=
  (pyRoundInt (q * (10 : ℚ) ^ d) : ℚ) / (10 : ℚ) ^ d

/-- The weight table of `NDJSONEncoder.encode` for `phase_one = True`
(`src/ndjson.py` lines 22-31), in insertion order. -/
def weightsPhase1 : List (String × ℚ) :=
  [("ramp_up_time", 0.20), ("license", 0.15), ("dataset_and_code_score", 0.10),
   ("performance_claims", 0.10), ("bus_factor", 0.10), ("code_quality", 0.15),
   ("dataset_quality", 0.15), ("size_score", 0.05)]

/-- The extended weight table of `NDJSONEncoder.encode` for
`phase_one = False` (`src/ndjson.py` lines 33-45), in insertion order. -/
def weightsExtended : List (String × ℚ) :=
  [("ramp_up_time", 0.15), ("license", 0.12), ("dataset_and_code_score", 0.10),
   ("performance_claims", 0.08), ("bus_factor", 0.10), ("code_quality", 0.12),
   ("dataset_quality", 0.12), ("size_score", 0.05), ("reproducibility", 0.10),
   ("reviewedness", 0.03), ("tree_score", 0.03)]

/-- Which weight table `NDJSONEncoder.encode` selects from its `phase_one`
flag. -/
def weightsFor (phase_one : Bool) : List (String × ℚ) :=
  if phase_one then weightsPhase1 else weightsExtended

/-- One iteration of the weighted-sum loop in `NDJSONEncoder.encode`
(lines 48-52): `if metric in model.metric_scores and
isinstance(model.metric_scores[metric].value, float):
net_score += model.metric_scores[metric].value * weight`.
Only values that are Python floats contribute; ints and mappings do not. -/
def netScoreStep (scores : String → Option MValue) (acc : ℚ) (nw : String × ℚ) : ℚ :=
  match scores nw.1 with
  | some (MValue.fl v) => acc + v * nw.2
  | _ => acc

/-- The accumulated weighted sum of `NDJSONEncoder.encode` (lines 48-52),
folding the loop body over the weight table in order. -/
def netScoreSum (weights : List (String × ℚ)) (scores : String → Option MValue) : ℚ :=
  weights.foldl (netScoreStep scores) 0

/-- `record["net_score"]` as computed by `NDJSONEncoder.encode` (line 54):
the weighted sum rounded to two decimal places. -/
def ndjsonNetScore (weights : List (String × ℚ)) (scores : String → Option MValue) : ℚ :=
  pyRound 2 (netScoreSum weights scores)

/-- The claim's weighted sum written as a mapped list sum: each weighted
name contributes `weight * value` when its value is a scalar float
(including negative sentinels) and `0` otherwise (absent names, ints,
mappings). -/
def weightedSum (weights : List (String × ℚ)) (scores : String → Option MValue) : ℚ :=
  (weights.map (fun nw =>
    match scores nw.1 with
    | some (MValue.fl v) => nw.2 * v
    | _ => 0)).sum

/-- Written from the spec's words, for comparison with the source
(`netScoreSum`): a weighted sum in which only non-sentinel (`≥ 0`) scalar
values contribute ("Only scalar, non-sentinel (≥0) values for names present
in the weight table contribute"). -/
def specNonSentinelSum (weights : List (String × ℚ)) (scores : String → Option MValue) : ℚ :=
  (weights.map (fun nw =>
    match scores nw.1 with
    | some (MValue.fl v) => if 0 ≤ v then nw.2 * v else 0
    | _ => 0)).sum

/-- Dict lookup in `model.metric_scores` (a dict keyed by result name):
the value of the first result with the given name. -/
def lookupVal (results : List MetricResult) (name : String) : Option MValue :=
  (results.find? (fun r => r.name = name)).map (·.value)

/-- A JSON value of the serialized NDJSON record. -/
inductive JVal where
  | jstr (s : String)
  | jnum (q : ℚ)
  | jint (n : ℤ)
  | jmap (m : List (String × ℚ))
  deriving DecidableEq

/-- Injection of a metric value into the serialized record. -/
def MValue.toJVal : MValue → JVal
  | MValue.fl q => JVal.jnum q
  | MValue.iv n => JVal.jint n
  | MValue.mp m => JVal.jmap m

/-- `max(latencies, default=1)`: Python's `max` of a sequence with a
`default` used only when the sequence is empty (`src/ndjson.py` line 57). -/
def maxOrDefault1 : List ℕ → ℕ
  | [] => 1
  | x :: xs => xs.foldl max x

/-- The record fields `NDJSONEncoder.encode` inserts before the net-score
block (`src/ndjson.py` lines 11-18): `name`, `category`, then per metric
result a value field and a latency field, in dict insertion order. -/
def recordBase (name category : String) (results : List MetricResult) : List (String × JVal) :=
  ("name", JVal.jstr name) :: ("category", JVal.jstr category) ::
    results.flatMap (fun r => [(r.name, r.value.toJVal), (r.name ++ "_latency", JVal.jint r.latency_ms)])

/-- `NDJSONEncoder.encode` (`src/ndjson.py`), as the association list of the
record it serializes: the base fields, plus — only when `"net_score"` is not
already a key and at least one metric result exists — the `net_score` and
`net_score_latency` fields (max submetric latency plus 100). -/
def NDJSONEncoder.encode (name category : String) (results : List MetricResult)
    (phase_one : Bool) : List (String × JVal) :=
  let record := recordBase name category results
  if ¬ ("net_score" ∈ record.map Prod.fst) ∧ results ≠ [] then
    record ++
      [("net_score", JVal.jnum (ndjsonNetScore (weightsFor phase_one) (lookupVal results))),
       ("net_score_latency", JVal.jint ((maxOrDefault1 (results.map (·.latency_ms))) + 100))]
  else record

/-- Lookup of a field in a serialized record (JSON object access). -/
def lookupField (record : List (String × JVal)) (k : String) : Option JVal :=
  (record.find? (fun p => p.1 = k)).map (·.2)

/-- The `hf_metadata` section of a metadata bundle, restricted to the keys
the embedded metrics read: `license` (`license.py`), `size_mb`
(`size_score.py`), `siblings` and `readme_text` (`tree_score.py`).
`size_mb` is fed to Python's `float(...)`: `none` means the key is absent
(the code then converts the default `0`), `some none` a present value whose
conversion raises `TypeError`/`ValueError` (caught, giving `0`), and
`some (some q)` a present value converting to `q`.  `siblings` is the list
of the siblings' `rfilename` entries; an absent key is the empty list
(`.get("siblings", [])`), and an absent `readme_text` is `""`
(`.get("readme_text", "")`). -/
structure HFMetadata where
  license : Option String
  size_mb : Option (Option ℚ)
  siblings : List String
  readme_text : String

/-- The `repo_metadata` section: the embedded metrics read only `repo_url`
(`reviewedness.py`); `none` models an absent key. -/
structure RepoMetadata where
  repo_url : Option String

/-- A metadata bundle as assembled by `cli.score` / `app.run_scoring`:
`{"hf_metadata": ..., "repo_metadata": ..., ...}`, plus the optional
top-level `artifact_id` read by `tree_score.py`.  `none` sections model
bundles from which the key is missing entirely (the partially populated
bundles of the spec). -/
structure Bundle where
  hf_metadata : Option HFMetadata
  repo_metadata : Option RepoMetadata
  artifact_id : Option String

/-- Substring containment check used to embed Python's `in` on strings. -/
def startsWithL : List Char → List Char → Bool
  | [], _ => true
  | _ :: _, [] => false
  | p :: ps, c :: cs => p = c && startsWithL ps cs

/-- Index of the first occurrence of `pat` in `text` (Python `str.find`,
restricted to the found case; `none` when `pat` does not occur). -/
def findSub (pat : List Char) : List Char → Option ℕ
  | [] => if startsWithL pat [] then some 0 else none
  | c :: rest =>
    if startsWithL pat (c :: rest) then some 0
    else (findSub pat rest).map (· + 1)

/-- Python `pat in text` for strings. -/
def containsSub (pat text : List Char) : Bool :=
  (findSub pat text).isSome

/-- Python `str.lower`, per character (the identifiers and license names the
code compares are ASCII). -/
def pyLower (l : List Char) : List Char :=
  l.map Char.toLower

/-- Python `str.strip` (whitespace trimmed from both ends). -/
def pyStrip (l : List Char) : List Char :=
  ((l.dropWhile Char.isWhitespace).reverse.dropWhile Char.isWhitespace).reverse

/-- `LicenseMetric.ALLOWED` (`src/license.py`). -/
def LicenseMetric.ALLOWED : List String :=
  ["mit", "apache-2.0", "bsd", "lgpl", "cc0-1.0"]

/-- `LicenseMetric.PROBLEMATIC` (`src/license.py`). -/
def LicenseMetric.PROBLEMATIC : List String :=
  ["gpl", "agpl", "cc-by-nc", "proprietary"]

/-- `LicenseMetric._norm` (`src/license.py`): normalize a raw license
string; `None` and `""` normalize to `""`, otherwise the lowered string is
classified by substring checks in source order, falling back to
`s.strip()`. -/
def LicenseMetric.norm (s : Option String) : String :=
  match s with
  | none => ""
  | some s0 =>
    if s0 = "" then ""
    else
      let l := pyLower s0.data
      if containsSub "mit".data l then "mit"
      else if containsSub "apache".data l then "apache-2.0"
      else if containsSub "bsd".data l then "bsd"
      else if containsSub "lgpl".data l && containsSub "2.1".data l then "lgpl-2.1"
      else if containsSub "agpl".data l then "agpl"
      else if containsSub "gpl".data l then "gpl"
      else if containsSub "cc-".data l then "cc-by-nc"
      else if containsSub "cc".data l then "cc0-1.0"
      else if containsSub "proprietary".data l then "proprietary"
      else String.mk (pyStrip l)

/-- `LicenseMetric.compute` (`src/license.py` lines 58-75).  The direct
index `metadata["hf_metadata"]` raises `KeyError` when the section is
missing — this is the only failure path, hence the `Except`.  `elapsed` is
the measured wall-clock duration in ms. -/
def LicenseMetric.compute (elapsed : ℕ) (metadata : Bundle) : Except String MetricResult :=
  match metadata.hf_metadata with
  | none => Except.error "KeyError: 'hf_metadata'"
  | some hf =>
    let raw_license := hf.license
    let lic_norm := LicenseMetric.norm raw_license
    let score : ℚ :=
      if lic_norm ∈ LicenseMetric.ALLOWED then 1
      else if lic_norm ∈ LicenseMetric.PROBLEMATIC then 0.4
      else 0
    Except.ok
      { name := "license"
        value := MValue.fl score
        details := [("license", match raw_license with
                       | none => DVal.dnone
                       | some s => DVal.dstr s),
                    ("normalized", DVal.dstr lic_norm)]
        latency_ms := elapsed }

/-- `SizeScoreMetric.DEVICE_THRESHOLDS` (`src/size_score.py`), in insertion
order. -/
def SizeScoreMetric.DEVICE_THRESHOLDS : List (String × ℚ) :=
  [("raspberry_pi", 2000), ("jetson_nano", 8000), ("desktop_pc", 16000), ("aws_server", 64000)]

/-- `SizeScoreMetric.compute` (`src/size_score.py` lines 37-57).  The direct
index `metadata["hf_metadata"]` raises `KeyError` when the section is
missing (the surrounding `try` catches only `TypeError`/`ValueError`, which
model a present but non-numeric `size_mb` and yield `storage_size = 0`).
Each device scores `max_mb / storage_size` capped at `1.0` (rounded to 3
places when at most 1), or `0.0` when `storage_size ≤ 0`. -/
def SizeScoreMetric.compute (elapsed : ℕ) (metadata : Bundle) : Except String MetricResult :=
  match metadata.hf_metadata with
  | none => Except.error "KeyError: 'hf_metadata'"
  | some hf =>
    let storage_size : ℚ :=
      match hf.size_mb with
      | none => 0
      | some none => 0
      | some (some q) => q
    let scores : List (String × ℚ) :=
      SizeScoreMetric.DEVICE_THRESHOLDS.map (fun dm =>
        let usage : ℚ := if 0 < storage_size then dm.2 / storage_size else 0
        (dm.1, if usage ≤ 1 then pyRound 3 usage else 1))
    Except.ok
      { name := "size_score"
        value := MValue.mp scores
        details := [("size_mb", DVal.dnum storage_size)]
        latency_ms := max 1 elapsed }

/-- A character of Python's regex class `[\w-]` (word character or dash;
the model identifiers the code extracts are ASCII). -/
def isW (c : Char) : Bool :=
  c.isAlphanum || c = '_' || c = '-'

/-- One attempt of the regex `[\w-]+/[\w-]+` at the head of `l`
(leftmost position, greedy runs): the match and the remainder after it,
or `none` when no match starts at the head. -/
def matchAt (l : List Char) : Option (List Char × List Char) :=
  let r1 := l.takeWhile isW
  if r1.isEmpty then none
  else
    match l.dropWhile isW with
    | '/' :: a2 =>
      let r2 := a2.takeWhile isW
      if r2.isEmpty then none
      else some (r1 ++ '/' :: r2, a2.dropWhile isW)
    | _ => none

/-- `re.findall(r'[\w-]+/[\w-]+', ...)`: scan left to right, emitting each
leftmost non-overlapping match and resuming after it, advancing one
character when no match starts at the current position.  `fuel` bounds the
recursion; every step consumes at least one character, so `fuel = l.length`
(see `findall`) computes the full scan. -/
def findallAux : ℕ → List Char → List (List Char)
  | 0, _ => []
  | _ + 1, [] => []
  | fuel + 1, c :: rest =>
    match matchAt (c :: rest) with
    | some (m, remainder) => m :: findallAux fuel remainder
    | none => findallAux fuel rest

/-- `re.findall(r'[\w-]+/[\w-]+', snippet)` over the snippet's characters. -/
def findall (l : List Char) : List (List Char) :=
  findallAux l.length l

/-- `parent_patterns` of `TreeScoreMetric._extract_parent_models`
(`src/tree_score.py` lines 131-137), in source order. -/
def parentPatterns : List String :=
  ["base model:", "fine-tuned from", "trained from", "parent model:", "derived from"]

/-- Helper for `firstTrigger`: try the patterns in order. -/
def firstTriggerAux : List String → List Char → Option ℕ
  | [], _ => none
  | p :: ps, rl =>
    match findSub p.data rl with
    | some i => some i
    | none => firstTriggerAux ps rl

/-- The pattern loop of `_extract_parent_models` (lines 139-150): the first
pattern (in source order) contained in the lowered readme, together with the
index of its first occurrence (`readme_lower.find(pattern)`); `none` when no
pattern occurs. -/
def firstTrigger (readme_lower : List Char) : Option ℕ :=
  firstTriggerAux parentPatterns readme_lower

/-- `TreeScoreMetric._extract_parent_models` (`src/tree_score.py` lines
103-154): require a `config.json` sibling, find the first trigger phrase in
the lowered readme, take the 200-character snippet of the original readme
from that index, collect the `org/model`-shaped regex matches (at most 3),
and deduplicate (`list(set(parents))`; Python's set iteration order is
unspecified, `List.dedup` — which keeps one occurrence of each element — is
used here, and no claim depends on the order). -/
def TreeScoreMetric.extractParentModels (metadata : Bundle) : List String :=
  let siblings := match metadata.hf_metadata with
    | some hf => hf.siblings
    | none => []
  if ¬ ("config.json" ∈ siblings) then []
  else
    let readme := match metadata.hf_metadata with
      | some hf => hf.readme_text.data
      | none => []
    let readme_lower := pyLower readme
    match firstTrigger readme_lower with
    | none => []
    | some idx =>
      let snippet := (readme.drop idx).take 200
      let ms := (findall snippet).map String.mk
      (ms.take 3).dedup

/-- `TreeScoreMetric._get_parent_score` (`src/tree_score.py` lines 156-184).
`storage` is the injected artifact-lookup collaborator, modelled as a
function from a parent id to its stored net score (`none` covers "no
storage injected" via the outer `Option`, and "no package matched the
anchored regex `^id$`", "package has no net-score value", and "lookup
raised" — all of which the source maps to `None`).  The visited set is
threaded explicitly; the id is added to it before the lookup, exactly as in
the source. -/
def TreeScoreMetric.getParentScore (storage : Option (String → Option ℚ))
    (visited : List String) (parent_id : String) : Option ℚ × List String :=
  match storage with
  | none => (none, visited)
  | some st =>
    if parent_id ∈ visited then (none, visited)
    else (st parent_id, parent_id :: visited)

/-- The resolution loop of `TreeScoreMetric.compute` (lines 71-74): fold
`_get_parent_score` over the candidates, collecting successfully resolved
scores in order. -/
def TreeScoreMetric.resolveParents (storage : Option (String → Option ℚ))
    (visited : List String) : List String → List ℚ
  | [] => []
  | p :: ps =>
    match TreeScoreMetric.getParentScore storage visited p with
    | (some q, visited') => q :: TreeScoreMetric.resolveParents storage visited' ps
    | (none, visited') => TreeScoreMetric.resolveParents storage visited' ps

/-- `TreeScoreMetric.compute` (`src/tree_score.py` lines 45-101): extract
candidate parents; with no candidates return the `0.0` "No parent models
found" result; otherwise seed the visited set with the bundle's
`artifact_id` when it is truthy (present and non-empty), resolve each
candidate, and either return the `0.0` "Could not fetch parent scores"
result (all candidates unresolved) or the rounded average of the resolved
parent scores.  The body is wrapped in a catch-all `try/except` in the
source, so the embedding is total. -/
def TreeScoreMetric.compute (storage : Option (String → Option ℚ)) (elapsed : ℕ)
    (metadata : Bundle) : MetricResult :=
  let parents := TreeScoreMetric.extractParentModels metadata
  if parents = [] then
    { name := "tree_score", value := MValue.fl 0
      details := [("reason", DVal.dstr "No parent models found")]
      latency_ms := max 1 elapsed }
  else
    let visited0 : List String := match metadata.artifact_id with
      | some a => if a = "" then [] else [a]
      | none => []
    let parent_scores := TreeScoreMetric.resolveParents storage visited0 parents
    if parent_scores = [] then
      { name := "tree_score", value := MValue.fl 0
        details := [("reason", DVal.dstr "Could not fetch parent scores")]
        latency_ms := max 1 elapsed }
    else
      { name := "tree_score"
        value := MValue.fl (pyRound 3 (parent_scores.sum / parent_scores.length))
        details := [("num_parents", DVal.dint parents.length),
                    ("evaluated_parents", DVal.dint parent_scores.length),
                    ("parent_scores", DVal.dlist parent_scores)]
        latency_ms := max 1 elapsed }

/-- One commit node of the GitHub GraphQL history queried by
`ReviewednessMetric._fetch_pr_stats` (`src/reviewedness.py`): whether the
commit has an associated pull request, and the review count of the first
associated pull request. -/
structure CommitNode where
  hasPR : Bool
  reviewCount : ℕ

/-- One page of the commit history: its nodes and the `hasNextPage` flag of
its `pageInfo`. -/
structure CommitPage where
  nodes : List CommitNode
  hasNext : Bool

/-- The node-counting body of `_fetch_pr_stats`: a commit counts as a
PR commit when it has an associated pull request with at least one
review. -/
def countPRNode (n : CommitNode) : Bool :=
  n.hasPR && n.reviewCount > 0

/-- The pagination loop of `ReviewednessMetric._fetch_pr_stats`
(`src/reviewedness.py`): up to `max_pages = 10` pages are requested (the
GraphQL endpoint is modelled as the oracle `pages`, from page number to
page); each page's nodes are tallied into `(pr_commits, total_commits)`,
and the loop stops early when a page has no next page. -/
def fetchPrStatsLoop (pages : ℕ → CommitPage) : ℕ → ℕ → ℕ → ℕ → ℕ × ℕ
  | 0, _, pr, total => (pr, total)
  | remaining + 1, idx, pr, total =>
    let page := pages idx
    let pr' := pr + page.nodes.countP countPRNode
    let total' := total + page.nodes.length
    if page.hasNext then fetchPrStatsLoop pages remaining (idx + 1) pr' total'
    else (pr', total')

/-- `ReviewednessMetric._fetch_pr_stats`, given the page oracle: returns
`(commits_via_reviewed_pr, total_commits)`. -/
def ReviewednessMetric.fetchPrStats (pages : ℕ → CommitPage) : ℕ × ℕ :=
  fetchPrStatsLoop pages 10 0 0 0

/-- Python `str.rstrip('/')`. -/
def rstripSlash (l : List Char) : List Char :=
  (l.reverse.dropWhile (· = '/')).reverse

/-- Python `str.split(sep)` for a single-character separator (empty pieces
are kept). -/
def splitOnChar (sep : Char) : List Char → List (List Char)
  | [] => [[]]
  | c :: rest =>
    let r := splitOnChar sep rest
    if c = sep then [] :: r
    else
      match r with
      | h :: t => (c :: h) :: t
      | [] => [[c]]

/-- `ReviewednessMetric._parse_github_url` (`src/reviewedness.py` lines
102-105): `parts = url.rstrip('/').split('/'); return parts[-2], parts[-1]`.
`none` models the `IndexError` raised when fewer than two parts exist
(caught by `compute`'s catch-all handler). -/
def ReviewednessMetric.parseGithubUrl (url : String) : Option (String × String) :=
  let parts := splitOnChar '/' (rstripSlash url.data)
  match parts.reverse with
  | last :: second_last :: _ => some (String.mk second_last, String.mk last)
  | _ => none

/-- The `repo_url` read by `ReviewednessMetric.compute`:
`metadata.get("repo_metadata", {}).get("repo_url")`. -/
def Bundle.repoUrl (metadata : Bundle) : Option String :=
  match metadata.repo_metadata with
  | some rm => rm.repo_url
  | none => none

/-- `ReviewednessMetric.compute` (`src/reviewedness.py` lines 51-99).
With no truthy `repo_url` (absent section, absent key, or empty string) the
sentinel `-1.0` is returned with a reason.  Otherwise the URL is parsed and
`_fetch_pr_stats` is consulted; its network interaction is modelled by
`fetch` — `Except.error e` models a raised exception anywhere in the fetch
(non-200 status, GraphQL errors, malformed response), which the catch-all
handler converts to a `0.0` result with an `error` detail, and `Except.ok
pages` models a reachable endpoint whose pages are `pages`.  An empty token
makes `_fetch_pr_stats` raise `ValueError` before any request.  With
`total_commits = 0` the result is `0.0` "No commits found"; otherwise the
reviewed fraction rounded to 3 places. -/
def ReviewednessMetric.compute (github_token : String)
    (fetch : Except String (ℕ → CommitPage)) (elapsed : ℕ)
    (metadata : Bundle) : MetricResult :=
  match metadata.repoUrl with
  | none =>
    { name := "reviewedness", value := MValue.fl (-1)
      details := [("reason", DVal.dstr "No linked GitHub repository")]
      latency_ms := max 1 elapsed }
  | some url =>
    if url = "" then
      { name := "reviewedness", value := MValue.fl (-1)
        details := [("reason", DVal.dstr "No linked GitHub repository")]
        latency_ms := max 1 elapsed }
    else
      match ReviewednessMetric.parseGithubUrl url with
      | none =>
        { name := "reviewedness", value := MValue.fl 0
          details := [("error", DVal.dstr "list index out of range")]
          latency_ms := max 1 elapsed }
      | some _ =>
        if github_token = "" then
          { name := "reviewedness", value := MValue.fl 0
            details := [("error", DVal.dstr "GitHub token required for reviewedness metric")]
            latency_ms := max 1 elapsed }
        else
          match fetch with
          | Except.error e =>
            { name := "reviewedness", value := MValue.fl 0
              details := [("error", DVal.dstr e)]
              latency_ms := max 1 elapsed }
          | Except.ok pages =>
            let pt := ReviewednessMetric.fetchPrStats pages
            if pt.2 = 0 then
              { name := "reviewedness", value := MValue.fl 0
                details := [("reason", DVal.dstr "No commits found")]
                latency_ms := max 1 elapsed }
            else
              let score : ℚ := (pt.1 : ℚ) / (pt.2 : ℚ)
              { name := "reviewedness", value := MValue.fl (pyRound 3 score)
                details := [("pr_commits", DVal.dint pt.1),
                            ("total_commits", DVal.dint pt.2),
                            ("review_percentage", DVal.dnum (pyRound 1 (score * 100)))]
                latency_ms := max 1 elapsed }

/-- The module-level initialization of `src/reviewedness.py` (lines 16-19):
after `load_dotenv`, `GITHUB_TOKEN = os.environ["GITHUB_TOKEN"]`, with the
`KeyError` for an unset variable re-raised as a `RuntimeError`.  `env` is
the process environment after `load_dotenv`; importing the module evaluates
this, so an `Except.error` means the import itself fails. -/
def reviewednessModuleInit (env : String → Option String) : Except String String :=
  match env "GITHUB_TOKEN" with
  | some t => Except.ok t
  | none => Except.error "RuntimeError: GITHUB_TOKEN variable is missing, and you kinda need that."

/-- Modelled from the spec: module `concurrency` is not in the repository
snapshot (only its callers `cli.py`/`app.py` and its test are).  A unit of
work submitted to the evaluator: a metric's stable name and its `compute`
function, which may raise (§4.1 of the spec). -/
structure SubmittedMetric where
  name : String
  compute : Bundle → Except String MetricResult

/-- Modelled from the spec: the error placeholder the evaluator records for
a raising unit (§4.2: "a `MetricResult` placeholder (value `0.0`, details
containing the error)"). -/
def errorPlaceholder (name : String) (e : String) : MetricResult :=
  { name := name, value := MValue.fl 0
    details := [("error", DVal.dstr e)], latency_ms := 0 }

/-- Modelled from the spec: `compute_all_metrics(metadata, metrics,
max_workers)` of the missing `concurrency` module, per §4.2/§5.  Every
submitted metric becomes exactly one result; a raising unit is contained
and recorded as its error placeholder, and no exception crosses the
evaluator's boundary (the function is total).  The bounded worker pool
affects only scheduling; §8 requires the resulting values to be independent
of `max_workers`, so the embedding returns the results in submission order
and ignores `max_workers` (§4.3: consumers must not rely on order). -/
def compute_all_metrics (metadata : Bundle) (metrics : List SubmittedMetric)
    (_max_workers : ℕ) : List MetricResult :=
  metrics.map (fun m =>
    match m.compute metadata with
    | Except.ok r => r
    | Except.error e => errorPlaceholder m.name e)

/-! ## Helper lemmas -/

lemma foldl_netScoreStep (scores : String → Option MValue) (ws : List (String × ℚ)) (acc : ℚ) :
    ws.foldl (netScoreStep scores) acc = acc + weightedSum ws scores := by
  induction ws generalizing acc with
  | nil => simp [weightedSum]
  | cons hd tl ih =>
    rw [List.foldl_cons, ih]
    simp only [weightedSum, List.map_cons, List.sum_cons, netScoreStep]
    cases hsc : scores hd.1 with
    | none => ring
    | some v =>
      cases v with
      | fl q => ring
      | iv n => ring
      | mp m => ring

lemma netScoreSum_eq_weightedSum (ws : List (String × ℚ)) (scores : String → Option MValue) :
    netScoreSum ws scores = weightedSum ws scores := by
  simpa [netScoreSum] using foldl_netScoreStep scores ws 0

lemma weightedSum_nonneg (ws : List (String × ℚ)) (scores : String → Option MValue)
    (hw : ∀ p ∈ ws, 0 ≤ p.2)
    (hv : ∀ p ∈ ws, ∀ v, scores p.1 = some (MValue.fl v) → 0 ≤ v) :
    0 ≤ weightedSum ws scores := by
  induction ws with
  | nil => simp [weightedSum]
  | cons hd tl ih =>
    simp only [weightedSum, List.map_cons, List.sum_cons]
    have h1 : 0 ≤ (match scores hd.1 with
        | some (MValue.fl v) => hd.2 * v
        | _ => (0 : ℚ)) := by
      cases hsc : scores hd.1 with
      | none => simp
      | some v =>
        cases v with
        | fl q => exact mul_nonneg (hw hd (by simp)) (hv hd (by simp) q hsc)
        | iv n => simp
        | mp m => simp
    have h2 : 0 ≤ weightedSum tl scores :=
      ih (fun p hp => hw p (List.mem_cons_of_mem hd hp))
        (fun p hp => hv p (List.mem_cons_of_mem hd hp))
    have := add_le_add h1 h2
    simpa [weightedSum] using this

lemma weightedSum_le_sum (ws : List (String × ℚ)) (scores : String → Option MValue)
    (hw : ∀ p ∈ ws, 0 ≤ p.2)
    (hv : ∀ p ∈ ws, ∀ v, scores p.1 = some (MValue.fl v) → v ≤ 1) :
    weightedSum ws scores ≤ (ws.map Prod.snd).sum := by
  induction ws with
  | nil => simp [weightedSum]
  | cons hd tl ih =>
    simp only [weightedSum, List.map_cons, List.sum_cons]
    have h1 : (match scores hd.1 with
        | some (MValue.fl v) => hd.2 * v
        | _ => (0 : ℚ)) ≤ hd.2 := by
      cases hsc : scores hd.1 with
      | none => simpa using hw hd (by simp)
      | some v =>
        cases v with
        | fl q =>
          simpa using mul_le_of_le_one_right (hw hd (by simp)) (hv hd (by simp) q hsc)
        | iv n => simpa using hw hd (by simp)
        | mp m => simpa using hw hd (by simp)
    have h2 : weightedSum tl scores ≤ (tl.map Prod.snd).sum :=
      ih (fun p hp => hw p (List.mem_cons_of_mem hd hp))
        (fun p hp => hv p (List.mem_cons_of_mem hd hp))
    have := add_le_add h1 h2
    simpa [weightedSum] using this

lemma pyRoundInt_nonneg (q : ℚ) (h : 0 ≤ q) : 0 ≤ pyRoundInt q := by
  have hn : 0 ≤ ⌊q⌋ := Int.floor_nonneg.mpr h
  unfold pyRoundInt
  dsimp only
  split_ifs <;> omega

lemma pyRoundInt_le (q : ℚ) (B : ℤ) (h : q ≤ B) : pyRoundInt q ≤ B := by
  have hfl : ⌊q⌋ ≤ B := by
    calc ⌊q⌋ ≤ ⌊(B : ℚ)⌋ := Int.floor_le_floor h
    _ = B := Int.floor_intCast B
  unfold pyRoundInt
  dsimp only
  split_ifs with h1 h2 h3
  · exact hfl
  · have hfr : (1 : ℚ)/2 ≤ q - ⌊q⌋ := not_lt.1 h1
    have : (⌊q⌋ : ℚ) < B := by
      have hq : (⌊q⌋ : ℚ) ≤ q - 1/2 := by linarith
      have : q - 1/2 < B := by linarith
      linarith
    have : ⌊q⌋ < B := by exact_mod_cast this
    omega
  · exact hfl
  · have hfr : (1 : ℚ)/2 ≤ q - ⌊q⌋ := not_lt.1 h1
    have : (⌊q⌋ : ℚ) < B := by
      have hq : (⌊q⌋ : ℚ) ≤ q - 1/2 := by linarith
      have : q - 1/2 < B := by linarith
      linarith
    have : ⌊q⌋ < B := by exact_mod_cast this
    omega

lemma pyRound_nonneg (d : ℕ) (q : ℚ) (h : 0 ≤ q) : 0 ≤ pyRound d q := by
  unfold pyRound
  have h1 : 0 ≤ pyRoundInt (q * (10 : ℚ) ^ d) :=
    pyRoundInt_nonneg _ (mul_nonneg h (by positivity))
  have h2 : (0 : ℚ) ≤ (pyRoundInt (q * (10 : ℚ) ^ d) : ℚ) := by exact_mod_cast h1
  positivity

lemma pyRound_le_one (d : ℕ) (q : ℚ) (h : q ≤ 1) : pyRound d q ≤ 1 := by
  unfold pyRound
  have hb : q * (10 : ℚ) ^ d ≤ ((10 ^ d : ℤ) : ℚ) := by
    push_cast
    have : (0 : ℚ) < (10 : ℚ) ^ d := by positivity
    nlinarith
  have h1 : pyRoundInt (q * (10 : ℚ) ^ d) ≤ (10 : ℤ) ^ d := pyRoundInt_le _ _ hb
  have h2 : ((pyRoundInt (q * (10 : ℚ) ^ d)) : ℚ) ≤ (10 : ℚ) ^ d := by exact_mod_cast h1
  have hpos : (0 : ℚ) < (10 : ℚ) ^ d := by positivity
  rw [div_le_one hpos]
  exact h2

/-- The spec's aggregation example: results `{A: 0.8, B: 1.0}`. -/
def scoresC4 : String → Option MValue := fun n =>
  if n = "A" then some (MValue.fl 0.8)
  else if n = "B" then some (MValue.fl 1) else none

/-- The spec's sentinel example: results `{A: 0.5, B: -1.0}`. -/
def scoresC1 : String → Option MValue := fun n =>
  if n = "A" then some (MValue.fl 0.5)
  else if n = "B" then some (MValue.fl (-1)) else none

/-- Metric results `{license: 1.0, reviewedness: -1.0}`, exercising the
extended weight table's sentinel-capable entry. -/
def scoresLicRev : String → Option MValue := fun n =>
  if n = "license" then some (MValue.fl 1)
  else if n = "reviewedness" then some (MValue.fl (-1)) else none

/-- C4.  Net-score formula: the net score of `NDJSONEncoder.encode` equals
`round(Σ weight[name] * value[name], 2)` with absent names contributing `0`
implicitly; both weight-table versions sum to at most 1; the net score lies
in `[0,1]` whenever every contributing (scalar float) value lies in
`[0,1]`; and results `{A: 0.8, B: 1.0}` under weights `{A: 0.5, B: 0.5}`
aggregate to `0.90`. -/
theorem C4_theorem :
    ((weightsPhase1.map Prod.snd).sum ≤ 1 ∧ (weightsExtended.map Prod.snd).sum ≤ 1) ∧
    (∀ (po : Bool) (scores : String → Option MValue),
      ndjsonNetScore (weightsFor po) scores = pyRound 2 (weightedSum (weightsFor po) scores)) ∧
    (∀ (po : Bool) (scores : String → Option MValue),
      (∀ p ∈ weightsFor po, ∀ v, scores p.1 = some (MValue.fl v) → 0 ≤ v ∧ v ≤ 1) →
      0 ≤ ndjsonNetScore (weightsFor po) scores ∧ ndjsonNetScore (weightsFor po) scores ≤ 1) ∧
    ndjsonNetScore [("A", 1/2), ("B", 1/2)] scoresC4 = 0.90 := by
  have hsum1 : (weightsPhase1.map Prod.snd).sum = 1 := by norm_num [weightsPhase1]
  have hsum2 : (weightsExtended.map Prod.snd).sum = 1 := by norm_num [weightsExtended]
  have hwnn : ∀ (po : Bool), ∀ p ∈ weightsFor po, 0 ≤ p.2 := by
    intro po p hp
    cases po <;> simp only [weightsFor, if_true, if_false, Bool.false_eq_true] at hp <;>
      fin_cases hp <;> norm_num
  refine ⟨⟨by rw [hsum1], by rw [hsum2]⟩, ?_, ?_, ?_⟩
  · intro po scores
    rw [ndjsonNetScore, netScoreSum_eq_weightedSum]
  · intro po scores hv
    have h0 : 0 ≤ weightedSum (weightsFor po) scores :=
      weightedSum_nonneg _ _ (hwnn po) (fun p hp v hsv => (hv p hp v hsv).1)
    have h1 : weightedSum (weightsFor po) scores ≤ ((weightsFor po).map Prod.snd).sum :=
      weightedSum_le_sum _ _ (hwnn po) (fun p hp v hsv => (hv p hp v hsv).2)
    have hsum : ((weightsFor po).map Prod.snd).sum = 1 := by
      cases po <;> simp [weightsFor, hsum1, hsum2]
    rw [ndjsonNetScore, netScoreSum_eq_weightedSum]
    exact ⟨pyRound_nonneg _ _ h0, pyRound_le_one _ _ (by rw [hsum] at h1; exact h1)⟩
  · simp [ndjsonNetScore, netScoreSum, netScoreStep, scoresC4]
    norm_num [pyRound, pyRoundInt]

/-- Witness for C4: the bound clause applied to the empty result set (no
name resolves to a scalar, so the hypothesis holds vacuously). -/
theorem C4_witness :
    0 ≤ ndjsonNetScore (weightsFor true) (fun _ => none) ∧
    ndjsonNetScore (weightsFor true) (fun _ => none) ≤ 1 :=
  C4_theorem.2.2.1 true (fun _ => none) (fun _ _ _ h => Option.noConfusion h)

/-- C1 (counterexample).  The claim says aggregation skips sentinel `-1.0`
values, and that `{A: 0.5, B: -1.0}` under weights `{A: 0.5, B: 0.5}` nets
`0.25`.  The loop in `NDJSONEncoder.encode` includes every scalar float —
`isinstance(value, float)` holds for `-1.0` — so the computed net score is
`-0.25`, not the claimed `0.25` (computed here as `specNonSentinelSum`, the
spec's words). -/
theorem C1_counterexample :
    ndjsonNetScore [("A", 1/2), ("B", 1/2)] scoresC1 = -0.25 ∧
    pyRound 2 (specNonSentinelSum [("A", 1/2), ("B", 1/2)] scoresC1) = 0.25 ∧
    ndjsonNetScore [("A", 1/2), ("B", 1/2)] scoresC1 ≠
      pyRound 2 (specNonSentinelSum [("A", 1/2), ("B", 1/2)] scoresC1) := by
  have h1 : ndjsonNetScore [("A", 1/2), ("B", 1/2)] scoresC1 = -0.25 := by
    simp [ndjsonNetScore, netScoreSum, netScoreStep, scoresC1]
    norm_num [pyRound, pyRoundInt]
  have h2 : pyRound 2 (specNonSentinelSum [("A", 1/2), ("B", 1/2)] scoresC1) = 0.25 := by
    simp [specNonSentinelSum, scoresC1]
    norm_num [pyRound, pyRoundInt]
  exact ⟨h1, h2, by rw [h1, h2]; norm_num⟩

/-- C1 (amended).  Sentinel `-1.0` values are *included* in net-score
aggregation: every scalar float value for a weighted name contributes
`weight * value`, negative sentinels included, so `{A: 0.5, B: -1.0}` with
weights `{A: 0.5, B: 0.5}` nets `-0.25`, and `{license: 1.0, reviewedness:
-1.0}` under the extended weight table nets `0.09` (instead of the `0.12`
the sentinel-skipping rule would give). -/
theorem C1_theorem :
    (∀ (ws : List (String × ℚ)) (scores : String → Option MValue),
      ndjsonNetScore ws scores = pyRound 2 (weightedSum ws scores)) ∧
    ndjsonNetScore [("A", 1/2), ("B", 1/2)] scoresC1 = -0.25 ∧
    ndjsonNetScore weightsExtended scoresLicRev = 0.09 ∧
    pyRound 2 (specNonSentinelSum weightsExtended scoresLicRev) = 0.12 := by
  refine ⟨?_, ?_, ?_, ?_⟩
  · intro ws scores
    rw [ndjsonNetScore, netScoreSum_eq_weightedSum]
  · simp [ndjsonNetScore, netScoreSum, netScoreStep, scoresC1]
    norm_num [pyRound, pyRoundInt]
  · simp [ndjsonNetScore, netScoreSum, netScoreStep, scoresLicRev, weightsExtended]
    norm_num [pyRound, pyRoundInt]
  · simp [specNonSentinelSum, scoresLicRev, weightsExtended]
    norm_num [pyRound, pyRoundInt]

/-- Overriding one name of a score lookup (used to state that a
mapping-valued entry contributes exactly what an absent entry does). -/
def setScore (scores : String → Option MValue) (n : String) (v : Option MValue) :
    String → Option MValue :=
  fun m => if m = n then v else scores m

lemma weightedSum_congr (ws : List (String × ℚ)) (s1 s2 : String → Option MValue)
    (h : ∀ p ∈ ws, s1 p.1 = s2 p.1) : weightedSum ws s1 = weightedSum ws s2 := by
  induction ws with
  | nil => simp [weightedSum]
  | cons hd tl ih =>
    simp only [weightedSum, List.map_cons, List.sum_cons]
    rw [h hd (by simp)]
    have := ih (fun p hp => h p (List.mem_cons_of_mem hd hp))
    simp only [weightedSum] at this
    rw [this]

lemma netScoreSum_map_as_absent (ws : List (String × ℚ)) (scores : String → Option MValue)
    (n : String) (mm : List (String × ℚ)) :
    netScoreSum ws (setScore scores n (some (MValue.mp mm))) =
      netScoreSum ws (setScore scores n none) := by
  rw [netScoreSum_eq_weightedSum, netScoreSum_eq_weightedSum]
  induction ws with
  | nil => simp [weightedSum]
  | cons hd tl ih =>
    simp only [weightedSum, List.map_cons, List.sum_cons] at *
    rw [ih]
    congr 1
    by_cases hn : hd.1 = n
    · simp [setScore, hn]
    · simp [setScore, hn]

/-- A bundle from which every section is missing. -/
def emptyBundle : Bundle :=
  { hf_metadata := none, repo_metadata := none, artifact_id := none }

lemma cap_bounds (u : ℚ) (hu : 0 ≤ u) :
    0 ≤ (if u ≤ 1 then pyRound 3 u else 1) ∧ (if u ≤ 1 then pyRound 3 u else 1) ≤ 1 := by
  split_ifs with h
  · exact ⟨pyRound_nonneg _ _ hu, pyRound_le_one _ _ h⟩
  · norm_num

lemma sizeScore_ok_bounds (elapsed : ℕ) (b : Bundle) (hf : HFMetadata)
    (hb : b.hf_metadata = some hf) :
    ∃ r, SizeScoreMetric.compute elapsed b = Except.ok r ∧ r.name = "size_score" ∧
      ∃ mm, r.value = MValue.mp mm ∧
        mm.map Prod.fst = ["raspberry_pi", "jetson_nano", "desktop_pc", "aws_server"] ∧
        ∀ p ∈ mm, 0 ≤ p.2 ∧ p.2 ≤ 1 := by
  refine ⟨_, by rw [SizeScoreMetric.compute, hb], rfl, _, rfl, ?_, ?_⟩
  · simp [SizeScoreMetric.DEVICE_THRESHOLDS]
  · intro p hp
    obtain ⟨dm, hdm, rfl⟩ := List.mem_map.1 hp
    have ht : 0 ≤ dm.2 := by
      fin_cases hdm <;> norm_num
    dsimp only
    refine cap_bounds _ ?_
    split_ifs with h
    · exact div_nonneg ht h.le
    · exact le_refl 0

/-- C3 (counterexample).  The claim says every registry metric's `compute`
never raises on an empty or partially populated bundle.  `LicenseMetric.compute`
indexes `metadata["hf_metadata"]` directly, so on a bundle missing that
section it raises `KeyError` instead of returning a result. -/
theorem C3_counterexample :
    LicenseMetric.compute 0 emptyBundle = Except.error "KeyError: 'hf_metadata'" := rfl

/-- C3 (amended).  On every bundle that does contain an `hf_metadata`
section — however empty or partial, and regardless of any other missing
sections — the cited metrics never raise and score within their declared
ranges: `LicenseMetric.compute` returns a scalar in `[0,1]` and
`SizeScoreMetric.compute` a per-device mapping into `[0,1]`.  (On a bundle
missing `hf_metadata` both raise `KeyError`, see the counterexample.) -/
theorem C3_theorem (elapsed : ℕ) (b : Bundle) (hf : HFMetadata)
    (hb : b.hf_metadata = some hf) :
    (∃ r, LicenseMetric.compute elapsed b = Except.ok r ∧
      ∃ v, r.value = MValue.fl v ∧ 0 ≤ v ∧ v ≤ 1) ∧
    (∃ r, SizeScoreMetric.compute elapsed b = Except.ok r ∧
      ∃ mm, r.value = MValue.mp mm ∧ ∀ p ∈ mm, 0 ≤ p.2 ∧ p.2 ≤ 1) := by
  constructor
  · refine ⟨_, by rw [LicenseMetric.compute, hb], _, rfl, ?_⟩
    split_ifs <;> norm_num
  · obtain ⟨r, hr, _, mm, hv, _, hb2⟩ := sizeScore_ok_bounds elapsed b hf hb
    exact ⟨r, hr, mm, hv, hb2⟩

/-- Witness for C3: the amended claim applied to the bundle whose
`hf_metadata` section is present but completely empty. -/
theorem C3_witness :
    (∃ r, LicenseMetric.compute 0
        { hf_metadata := some { license := none, size_mb := none, siblings := [], readme_text := "" },
          repo_metadata := none, artifact_id := none } = Except.ok r ∧
      ∃ v, r.value = MValue.fl v ∧ 0 ≤ v ∧ v ≤ 1) ∧
    (∃ r, SizeScoreMetric.compute 0
        { hf_metadata := some { license := none, size_mb := none, siblings := [], readme_text := "" },
          repo_metadata := none, artifact_id := none } = Except.ok r ∧
      ∃ mm, r.value = MValue.mp mm ∧ ∀ p ∈ mm, 0 ≤ p.2 ∧ p.2 ≤ 1) :=
  C3_theorem 0 _ _ rfl

/-- C8 (counterexample).  The claim quantifies over every bundle, but
`SizeScoreMetric.compute` raises `KeyError` on a bundle missing the
`hf_metadata` section (the `try` around the `float(...)` conversion catches
only `TypeError`/`ValueError`), so there it returns no mapping at all. -/
theorem C8_counterexample :
    SizeScoreMetric.compute 0 emptyBundle = Except.error "KeyError: 'hf_metadata'" := rfl

/-- C8 (amended).  On every bundle containing an `hf_metadata` section the
size-score metric returns a per-device mapping over exactly
`raspberry_pi, jetson_nano, desktop_pc, aws_server` with every per-device
value in `[0,1]` (on a bundle missing `hf_metadata` it raises, see the
counterexample); and a mapping-valued entry contributes nothing to the
computed net score — the weighted sum with a name bound to a mapping equals
the weighted sum with that name absent. -/
theorem C8_theorem :
    (∀ (elapsed : ℕ) (b : Bundle) (hf : HFMetadata), b.hf_metadata = some hf →
      ∃ r, SizeScoreMetric.compute elapsed b = Except.ok r ∧ r.name = "size_score" ∧
        ∃ mm, r.value = MValue.mp mm ∧
          mm.map Prod.fst = ["raspberry_pi", "jetson_nano", "desktop_pc", "aws_server"] ∧
          ∀ p ∈ mm, 0 ≤ p.2 ∧ p.2 ≤ 1) ∧
    (∀ (ws : List (String × ℚ)) (scores : String → Option MValue) (n : String)
      (mm : List (String × ℚ)),
      netScoreSum ws (setScore scores n (some (MValue.mp mm))) =
        netScoreSum ws (setScore scores n none)) :=
  ⟨sizeScore_ok_bounds, netScoreSum_map_as_absent⟩

/-- Witness for C8: the amended claim applied to a bundle whose
`hf_metadata` reports a 4000 MB model, and to the extended weight table
with `size_score` bound to a mapping. -/
theorem C8_witness :
    (∃ r, SizeScoreMetric.compute 3
        { hf_metadata := some { license := none, size_mb := some (some 4000), siblings := [], readme_text := "" },
          repo_metadata := none, artifact_id := none } = Except.ok r ∧ r.name = "size_score" ∧
      ∃ mm, r.value = MValue.mp mm ∧
        mm.map Prod.fst = ["raspberry_pi", "jetson_nano", "desktop_pc", "aws_server"] ∧
        ∀ p ∈ mm, 0 ≤ p.2 ∧ p.2 ≤ 1) ∧
    netScoreSum weightsExtended (setScore (fun _ => none) "size_score" (some (MValue.mp [("raspberry_pi", 1)]))) =
      netScoreSum weightsExtended (setScore (fun _ => none) "size_score" none) :=
  ⟨C8_theorem.1 3 _ _ rfl, C8_theorem.2 weightsExtended (fun _ => none) "size_score" [("raspberry_pi", 1)]⟩

lemma firstTriggerAux_eq_none (ps : List String) (rl : List Char)
    (h : ∀ p ∈ ps, findSub p.data rl = none) : firstTriggerAux ps rl = none := by
  induction ps with
  | nil => rfl
  | cons p ps' ih =>
    simp only [firstTriggerAux]
    rw [h p (by simp)]
    exact ih (fun q hq => h q (List.mem_cons_of_mem p hq))

lemma findallAux_ne_nil (c1 c2 : Char) (h1 : isW c1 = true) (h2 : isW c2 = true) :
    ∀ (xs : List Char) (fuel : ℕ) (ys : List Char), xs.length < fuel →
      findallAux fuel (xs ++ c1 :: '/' :: c2 :: ys) ≠ [] := by
  intro xs
  induction xs with
  | nil =>
    intro fuel ys hf
    match fuel, hf with
    | f + 1, _ =>
      have hslash : isW '/' = false := by decide
      simp only [List.nil_append, findallAux, matchAt, List.takeWhile_cons, h1, hslash,
        List.dropWhile_cons, if_true, if_false, List.takeWhile_nil, h2]
      simp [h2]
  | cons x xs' ih =>
    intro fuel ys hf
    match fuel, hf with
    | f + 1, hf =>
      have hlt : xs'.length < f := by
        simp only [List.length_cons] at hf
        omega
      cases hm : matchAt ((x :: xs') ++ c1 :: '/' :: c2 :: ys) with
      | some mr =>
        simp only [List.cons_append, findallAux, List.append_eq]
        rw [show matchAt (x :: (xs' ++ c1 :: '/' :: c2 :: ys)) = some mr by
          simpa using hm]
        simp
      | none =>
        simp only [List.cons_append, findallAux, List.append_eq]
        rw [show matchAt (x :: (xs' ++ c1 :: '/' :: c2 :: ys)) = none by
          simpa using hm]
        exact ih f ys hlt

lemma findall_ne_nil (xs : List Char) (c1 c2 : Char) (ys : List Char)
    (h1 : isW c1 = true) (h2 : isW c2 = true) :
    findall (xs ++ c1 :: '/' :: c2 :: ys) ≠ [] := by
  apply findallAux_ne_nil c1 c2 h1 h2
  simp only [List.length_append, List.length_cons]
  omega

lemma resolveParents_skip_visited (storage : Option (String → Option ℚ)) (a : String) :
    ∀ (parents : List String) (visited : List String), a ∈ visited →
      TreeScoreMetric.resolveParents storage visited parents =
        TreeScoreMetric.resolveParents storage visited (parents.filter (· ≠ a)) := by
  intro parents
  induction parents with
  | nil => intro visited _; rfl
  | cons p ps ih =>
    intro visited ha
    by_cases hpa : p = a
    · subst hpa
      have hfilter : (p :: ps).filter (· ≠ p) = ps.filter (· ≠ p) := by simp
      rw [hfilter]
      cases storage with
      | none =>
        simp only [TreeScoreMetric.resolveParents, TreeScoreMetric.getParentScore]
        exact ih visited ha
      | some st =>
        simp only [TreeScoreMetric.resolveParents, TreeScoreMetric.getParentScore, if_pos ha]
        exact ih visited ha
    · have hfilter : (p :: ps).filter (· ≠ a) = p :: ps.filter (· ≠ a) := by
        simp [hpa]
      rw [hfilter]
      cases storage with
      | none =>
        simp only [TreeScoreMetric.resolveParents, TreeScoreMetric.getParentScore]
        exact ih visited ha
      | some st =>
        by_cases hv : p ∈ visited
        · simp only [TreeScoreMetric.resolveParents, TreeScoreMetric.getParentScore, if_pos hv]
          exact ih visited ha
        · simp only [TreeScoreMetric.resolveParents, TreeScoreMetric.getParentScore, if_neg hv]
          cases hst : st p with
          | none =>
            dsimp only
            exact ih (p :: visited) (List.mem_cons_of_mem p ha)
          | some q =>
            dsimp only
            rw [ih (p :: visited) (List.mem_cons_of_mem p ha)]

/-- An `hf_metadata` section whose readme names the artifact itself as its
base model and whose siblings include `config.json`. -/
def hfSelfParent : HFMetadata :=
  { license := none, size_mb := none, siblings := ["config.json"],
    readme_text := "base model: org/model" }

/-- A bundle listing itself (`org/model`) as its only candidate parent. -/
def bundleSelfParent : Bundle :=
  { hf_metadata := some hfSelfParent, repo_metadata := none,
    artifact_id := some "org/model" }

/-- An `hf_metadata` section with a trigger phrase and an `org/model` token
in the readme but no `config.json` sibling. -/
def hfNoConfig : HFMetadata :=
  { license := none, size_mb := none, siblings := [],
    readme_text := "fine-tuned from org/model" }

/-- A bundle whose documentation names a parent but whose siblings lack
`config.json`. -/
def bundleNoConfig : Bundle :=
  { hf_metadata := some hfNoConfig, repo_metadata := none, artifact_id := none }

/-- C5.  Lineage cycle avoidance: when the bundle's artifact id is known
(present and non-empty), the per-call visited set is pre-seeded with it, so
(a) if that self-reference is the only extracted candidate, `compute`
returns the `0.0` "Could not fetch parent scores" result for *every*
storage — even one that stores a score for the artifact itself — and
(b) in general, resolution with a pre-seeded visited set never resolves or
counts a candidate already in it: the resolved scores equal those of the
candidate list with that id filtered out entirely; and
(c) a repeated candidate is never counted twice: a duplicated head resolves
exactly as a single occurrence does. -/
theorem C5_theorem :
    (∀ (storage : Option (String → Option ℚ)) (elapsed : ℕ) (b : Bundle) (a : String),
      b.artifact_id = some a → a ≠ "" →
      TreeScoreMetric.extractParentModels b = [a] →
      TreeScoreMetric.compute storage elapsed b =
        { name := "tree_score", value := MValue.fl 0,
          details := [("reason", DVal.dstr "Could not fetch parent scores")],
          latency_ms := max 1 elapsed }) ∧
    (∀ (storage : Option (String → Option ℚ)) (visited parents : List String) (a : String),
      a ∈ visited →
      TreeScoreMetric.resolveParents storage visited parents =
        TreeScoreMetric.resolveParents storage visited (parents.filter (· ≠ a))) ∧
    (∀ (storage : Option (String → Option ℚ)) (visited : List String) (p : String)
      (ps : List String),
      TreeScoreMetric.resolveParents storage visited (p :: p :: ps) =
        TreeScoreMetric.resolveParents storage visited (p :: ps)) := by
  refine ⟨?_, ?_, ?_⟩
  · intro storage elapsed b a hid hne hext
    rw [TreeScoreMetric.compute, hext, hid]
    have hres : TreeScoreMetric.resolveParents storage
        (if a = "" then [] else [a]) [a] = [] := by
      rw [if_neg hne]
      cases storage with
      | none => rfl
      | some st =>
        simp [TreeScoreMetric.resolveParents, TreeScoreMetric.getParentScore]
    simp [hres]
  · intro storage visited parents a ha
    exact resolveParents_skip_visited storage a parents visited ha
  · intro storage visited p ps
    cases storage with
    | none => rfl
    | some st =>
      by_cases hv : p ∈ visited
      · simp only [TreeScoreMetric.resolveParents, TreeScoreMetric.getParentScore, if_pos hv]
      · simp only [TreeScoreMetric.resolveParents, TreeScoreMetric.getParentScore, if_neg hv]
        cases hst : st p with
        | none =>
          dsimp only
          simp [TreeScoreMetric.resolveParents, TreeScoreMetric.getParentScore]
        | some q =>
          dsimp only
          simp [TreeScoreMetric.resolveParents, TreeScoreMetric.getParentScore]

/-- Witness for C5: the self-parent bundle under a storage that would
resolve any id to a stored score of `1`; and the skip property at a
concrete visited set. -/
theorem C5_witness :
    TreeScoreMetric.compute (some (fun _ => some 1)) 7 bundleSelfParent =
      { name := "tree_score", value := MValue.fl 0,
        details := [("reason", DVal.dstr "Could not fetch parent scores")],
        latency_ms := max 1 7 } ∧
    TreeScoreMetric.resolveParents (some (fun _ => some 1)) ["x"] ["x", "y"] =
      TreeScoreMetric.resolveParents (some (fun _ => some 1)) ["x"]
        (["x", "y"].filter (· ≠ "x")) :=
  ⟨C5_theorem.1 (some (fun _ => some 1)) 7 bundleSelfParent "org/model" rfl
      (by decide) (by decide),
   C5_theorem.2.1 (some (fun _ => some 1)) ["x"] ["x", "y"] "x" (by decide)⟩

/-- C6 (counterexample).  The claim says a bundle whose documentation
contains a trigger phrase followed by an `org/model` token always yields at
least one candidate.  `bundleNoConfig`'s readme is exactly
`"fine-tuned from org/model"` — the trigger occurs (at index 0 of the
lowered readme) and the regex finds the token — yet extraction returns no
candidates, because `_extract_parent_models` first requires a `config.json`
sibling, and `compute` falls through to the "No parent models found"
result. -/
theorem C6_counterexample :
    containsSub "fine-tuned from".data (pyLower hfNoConfig.readme_text.data) = true ∧
    (findall hfNoConfig.readme_text.data).map String.mk = ["org/model"] ∧
    TreeScoreMetric.extractParentModels bundleNoConfig = [] ∧
    TreeScoreMetric.compute none 0 bundleNoConfig =
      { name := "tree_score", value := MValue.fl 0,
        details := [("reason", DVal.dstr "No parent models found")],
        latency_ms := 1 } :=
  ⟨by decide, by decide, by decide, by decide⟩

/-- C6 (amended).  Candidate extraction, as the code implements it:
(a) for every bundle whose `hf_metadata` lists a `config.json` sibling and
whose documentation contains a trigger phrase — taking the first trigger
(in the fixed pattern order) found in the lowered readme — such that the
200-character snippet after it contains an identifier-shaped `org/model`
token, extraction yields at least one candidate; and
(b) when the documentation contains no trigger phrase at all, zero
candidates are extracted and `compute` returns the `0.0`
"No parent models found" result. -/
theorem C6_theorem :
    (∀ (b : Bundle) (hf : HFMetadata), b.hf_metadata = some hf →
      "config.json" ∈ hf.siblings →
      ∀ idx, firstTrigger (pyLower hf.readme_text.data) = some idx →
      ∀ (xs : List Char) (c1 c2 : Char) (ys : List Char),
        (hf.readme_text.data.drop idx).take 200 = xs ++ c1 :: '/' :: c2 :: ys →
        isW c1 = true → isW c2 = true →
        TreeScoreMetric.extractParentModels b ≠ []) ∧
    (∀ (storage : Option (String → Option ℚ)) (elapsed : ℕ) (b : Bundle),
      (∀ hf, b.hf_metadata = some hf →
        ∀ p ∈ parentPatterns, findSub p.data (pyLower hf.readme_text.data) = none) →
      TreeScoreMetric.extractParentModels b = [] ∧
      TreeScoreMetric.compute storage elapsed b =
        { name := "tree_score", value := MValue.fl 0,
          details := [("reason", DVal.dstr "No parent models found")],
          latency_ms := max 1 elapsed }) := by
  constructor
  · intro b hf hb hcfg idx hidx xs c1 c2 ys hsnip h1 h2
    rw [TreeScoreMetric.extractParentModels, hb]
    simp only [hcfg, not_true_eq_false, if_false]
    rw [hidx]
    dsimp only
    rw [hsnip]
    have hne : findall (xs ++ c1 :: '/' :: c2 :: ys) ≠ [] :=
      findall_ne_nil xs c1 c2 ys h1 h2
    obtain ⟨m, rest, hrw⟩ := List.exists_cons_of_ne_nil hne
    rw [hrw]
    intro hcon
    rw [List.map_cons, List.take_succ_cons] at hcon
    exact absurd ((List.dedup_eq_nil _).mp hcon) (by simp)
  · intro storage elapsed b hnotrig
    have hext : TreeScoreMetric.extractParentModels b = [] := by
      rw [TreeScoreMetric.extractParentModels]
      cases hb : b.hf_metadata with
      | none => simp
      | some hf =>
        by_cases hcfg : "config.json" ∈ hf.siblings
        · simp only [hcfg, not_true_eq_false, if_false]
          rw [firstTrigger, firstTriggerAux_eq_none _ _ (hnotrig hf hb)]
        · simp [hcfg]
    refine ⟨hext, ?_⟩
    rw [TreeScoreMetric.compute, hext]
    simp

/-- The no-config bundle with its `config.json` sibling restored. -/
def hfWithConfig : HFMetadata :=
  { license := none, size_mb := none, siblings := ["config.json"],
    readme_text := "fine-tuned from org/model" }

/-- A bundle with a `config.json` sibling and a readme naming a parent. -/
def bundleWithConfig : Bundle :=
  { hf_metadata := some hfWithConfig, repo_metadata := none, artifact_id := none }

/-- An `hf_metadata` section whose readme contains no trigger phrase. -/
def hfNoTrigger : HFMetadata :=
  { license := none, size_mb := none, siblings := ["config.json"],
    readme_text := "just a readme" }

/-- A bundle whose readme contains no trigger phrase. -/
def bundleNoTrigger : Bundle :=
  { hf_metadata := some hfNoTrigger, repo_metadata := none, artifact_id := none }

/-- Witness for C6: (a) applied to the bundle whose readme is
`"fine-tuned from org/model"` *with* a `config.json` sibling (the trigger
is found at index 0 and the token `org/model` sits inside the snippet), and
(b) applied to a bundle whose readme contains no trigger phrase. -/
theorem C6_witness :
    TreeScoreMetric.extractParentModels bundleWithConfig ≠ [] ∧
    TreeScoreMetric.extractParentModels bundleNoTrigger = [] :=
  ⟨C6_theorem.1 bundleWithConfig hfWithConfig rfl (by decide) 0 (by decide)
      "fine-tuned from or".data 'g' 'm' "odel".data (by decide) (by decide) (by decide),
   (C6_theorem.2 none 0 bundleNoTrigger (fun hf hhf p hp => by
      cases hhf
      fin_cases hp <;> decide)).1⟩

lemma foldl_max_mem (x : ℕ) (xs : List ℕ) : xs.foldl max x ∈ x :: xs := by
  induction xs generalizing x with
  | nil => simp
  | cons y ys ih =>
    simp only [List.foldl_cons]
    cases List.mem_cons.mp (ih (max x y)) with
    | inl h =>
      rw [h]
      rcases max_choice x y with hc | hc
      · rw [hc]; exact List.mem_cons_self _ _
      · rw [hc]; exact List.mem_cons_of_mem _ (List.mem_cons_self _ _)
    | inr h => exact List.mem_cons_of_mem _ (List.mem_cons_of_mem _ h)

lemma le_foldl_max (x : ℕ) (xs : List ℕ) : ∀ y ∈ x :: xs, y ≤ xs.foldl max x := by
  induction xs generalizing x with
  | nil => simp
  | cons z zs ih =>
    intro y hy
    simp only [List.foldl_cons]
    rcases List.mem_cons.mp hy with rfl | hy'
    · calc y ≤ max y z := le_max_left y z
      _ ≤ zs.foldl max (max y z) := ih (max y z) (max y z) (List.mem_cons_self _ _)
    · rcases List.mem_cons.mp hy' with rfl | hy''
      · calc y ≤ max x y := le_max_right x y
        _ ≤ zs.foldl max (max x y) := ih (max x y) (max x y) (List.mem_cons_self _ _)
      · exact ih (max x z) y (List.mem_cons_of_mem _ hy'')

lemma maxOrDefault1_mem (l : List ℕ) (h : l ≠ []) : maxOrDefault1 l ∈ l := by
  cases l with
  | nil => exact absurd rfl h
  | cons x xs => exact foldl_max_mem x xs

lemma le_maxOrDefault1 (l : List ℕ) : ∀ y ∈ l, y ≤ maxOrDefault1 l := by
  cases l with
  | nil => intro y hy; exact absurd hy (List.not_mem_nil y)
  | cons x xs => exact le_foldl_max x xs

lemma append_latency_ne_net_score (s : String) : s ++ "_latency" ≠ "net_score" := by
  intro h
  have hd : s.data ++ "_latency".data = "net_score".data := by
    have := congrArg String.data h
    simpa [String.data_append] using this
  have hlen : s.data.length + 8 = 9 := by
    have := congrArg List.length hd
    simpa using this
  have h1 : s.data.length = 1 := by omega
  obtain ⟨c, hc⟩ : ∃ c, s.data = [c] := by
    cases hsd : s.data with
    | nil => rw [hsd] at h1; simp at h1
    | cons c tl =>
      refine ⟨c, ?_⟩
      rw [hsd] at h1
      simp only [List.length_cons] at h1
      have : tl.length = 0 := by omega
      rw [List.length_eq_zero.mp this]
  rw [hc] at hd
  simp only [List.cons_append, List.nil_append] at hd
  have := (List.cons.injEq _ _ _ _).mp hd
  exact absurd this.2 (by decide)

lemma append_latency_eq_nsl (s : String) (h : s ++ "_latency" = "net_score_latency") :
    s = "net_score" := by
  have hd : s.data ++ "_latency".data = "net_score_latency".data := by
    have := congrArg String.data h
    simpa [String.data_append] using this
  have hsplit : ("net_score_latency" : String).data = "net_score".data ++ "_latency".data := by
    decide
  rw [hsplit] at hd
  have hds : s.data = "net_score".data := List.append_cancel_right hd
  exact congrArg String.mk hds

lemma recordBase_entry_key (name category : String) (results : List MetricResult)
    (p : String × JVal) (hp : p ∈ recordBase name category results) :
    p.1 = "name" ∨ p.1 = "category" ∨
      ∃ r ∈ results, p.1 = r.name ∨ p.1 = r.name ++ "_latency" := by
  simp only [recordBase, List.mem_cons] at hp
  rcases hp with rfl | rfl | hp
  · exact Or.inl rfl
  · exact Or.inr (Or.inl rfl)
  · obtain ⟨r, hr, hpr⟩ := List.mem_flatMap.mp hp
    simp only [List.mem_cons, List.not_mem_nil, or_false] at hpr
    rcases hpr with rfl | rfl
    · exact Or.inr (Or.inr ⟨r, hr, Or.inl rfl⟩)
    · exact Or.inr (Or.inr ⟨r, hr, Or.inr rfl⟩)

lemma recordBase_find_none (name category : String) (results : List MetricResult) (k : String)
    (hk1 : "name" ≠ k) (hk2 : "category" ≠ k)
    (hname : ∀ r ∈ results, r.name ≠ k)
    (hlat : ∀ r ∈ results, r.name ++ "_latency" ≠ k) :
    (recordBase name category results).find? (fun p => p.1 = k) = none := by
  rw [List.find?_eq_none]
  intro p hp
  rcases recordBase_entry_key name category results p hp with h | h | ⟨r, hr, h | h⟩ <;>
    simp only [h, decide_eq_true_eq]
  · exact hk1
  · exact hk2
  · exact hname r hr
  · exact hlat r hr

lemma recordBase_key_not_mem (name category : String) (results : List MetricResult) (k : String)
    (hk1 : "name" ≠ k) (hk2 : "category" ≠ k)
    (hname : ∀ r ∈ results, r.name ≠ k)
    (hlat : ∀ r ∈ results, r.name ++ "_latency" ≠ k) :
    k ∉ (recordBase name category results).map Prod.fst := by
  intro hk
  obtain ⟨p, hp, hpk⟩ := List.mem_map.mp hk
  rcases recordBase_entry_key name category results p hp with h | h | ⟨r, hr, h | h⟩
  · exact hk1 (h ▸ hpk)
  · exact hk2 (h ▸ hpk)
  · exact hname r hr (h ▸ hpk)
  · exact hlat r hr (h ▸ hpk)

/-- C7 (counterexample).  The claim says that with no metric results the
net-score latency "falls back to 1".  In the code, the whole net-score
block of `NDJSONEncoder.encode` is guarded by `model.metric_scores` being
non-empty, so with no results no `net_score_latency` (and no `net_score`)
field is emitted at all — the `default=1` inside `max(...)` is
unreachable, and had the block run it would have emitted `1 + 100`. -/
theorem C7_counterexample :
    lookupField (NDJSONEncoder.encode "m" "MODEL" [] false) "net_score_latency" = none ∧
    lookupField (NDJSONEncoder.encode "m" "MODEL" [] false) "net_score" = none :=
  ⟨by decide, by decide⟩

/-- C7 (amended).  For every serialized record with at least one metric
result (and no metric named `net_score`/`net_score_latency`, which would
collide with the emitted keys), `net_score_latency` equals the maximum
`latency_ms` over all metric results plus the fixed overhead `100`
(`maxOrDefault1` of a non-empty list is its maximum: an upper bound that is
attained); with no metric results, no `net_score_latency` field is emitted
at all. -/
theorem C7_theorem :
    (∀ (name category : String) (results : List MetricResult) (po : Bool),
      results ≠ [] →
      (∀ r ∈ results, r.name ≠ "net_score" ∧ r.name ≠ "net_score_latency") →
      lookupField (NDJSONEncoder.encode name category results po) "net_score_latency" =
        some (JVal.jint ((maxOrDefault1 (results.map MetricResult.latency_ms) : ℕ) + 100)) ∧
      (∀ r ∈ results, r.latency_ms ≤ maxOrDefault1 (results.map MetricResult.latency_ms)) ∧
      (∃ r ∈ results, maxOrDefault1 (results.map MetricResult.latency_ms) = r.latency_ms)) ∧
    (∀ (name category : String) (po : Bool),
      lookupField (NDJSONEncoder.encode name category [] po) "net_score_latency" = none) := by
  constructor
  · intro name category results po hne hnames
    have hguard : ¬ ("net_score" ∈ (recordBase name category results).map Prod.fst) :=
      recordBase_key_not_mem name category results "net_score"
        (by decide) (by decide) (fun r hr => (hnames r hr).1)
        (fun r hr => append_latency_ne_net_score r.name)
    refine ⟨?_, ?_, ?_⟩
    · rw [NDJSONEncoder.encode]
      rw [if_pos ⟨hguard, hne⟩]
      rw [lookupField, List.find?_append]
      rw [recordBase_find_none name category results "net_score_latency"
        (by decide) (by decide) (fun r hr => (hnames r hr).2)
        (fun r hr hcon => (hnames r hr).1 (append_latency_eq_nsl r.name hcon))]
      simp
    · intro r hr
      exact le_maxOrDefault1 _ _ (List.mem_map_of_mem MetricResult.latency_ms hr)
    · have hmm : maxOrDefault1 (results.map MetricResult.latency_ms) ∈
          results.map MetricResult.latency_ms :=
        maxOrDefault1_mem _ (by simpa using hne)
      obtain ⟨r, hr, hlat⟩ := List.mem_map.mp hmm
      exact ⟨r, hr, hlat.symm⟩
  · intro name category po
    rw [NDJSONEncoder.encode]
    simp [lookupField, recordBase, List.find?]

/-- A concrete result list for the C7 witness. -/
def resultsC7 : List MetricResult :=
  [{ name := "license", value := MValue.fl 1, details := [], latency_ms := 7 },
   { name := "bus_factor", value := MValue.fl 0, details := [], latency_ms := 3 }]

/-- Witness for C7: the amended claim applied to two concrete results with
latencies 7 and 3 (max 7, so the emitted latency is 107), and to the empty
result list. -/
theorem C7_witness :
    (lookupField (NDJSONEncoder.encode "m" "MODEL" resultsC7 false) "net_score_latency" =
      some (JVal.jint ((maxOrDefault1 (resultsC7.map MetricResult.latency_ms) : ℕ) + 100)) ∧
      (∀ r ∈ resultsC7, r.latency_ms ≤ maxOrDefault1 (resultsC7.map MetricResult.latency_ms)) ∧
      (∃ r ∈ resultsC7, maxOrDefault1 (resultsC7.map MetricResult.latency_ms) = r.latency_ms)) ∧
    lookupField (NDJSONEncoder.encode "x" "DATASET" [] true) "net_score_latency" = none :=
  ⟨C7_theorem.1 "m" "MODEL" resultsC7 false (by decide)
      (by intro r hr; fin_cases hr <;> exact ⟨by decide, by decide⟩),
   C7_theorem.2 "x" "DATASET" true⟩

lemma fetchPrStatsLoop_le (pages : ℕ → CommitPage) :
    ∀ (rem idx pr total : ℕ), pr ≤ total →
      (fetchPrStatsLoop pages rem idx pr total).1 ≤ (fetchPrStatsLoop pages rem idx pr total).2 := by
  intro rem
  induction rem with
  | zero => intro idx pr total h; exact h
  | succ n ih =>
    intro idx pr total h
    simp only [fetchPrStatsLoop]
    have hstep : pr + (pages idx).nodes.countP countPRNode ≤ total + (pages idx).nodes.length :=
      Nat.add_le_add h (List.countP_le_length countPRNode)
    split_ifs with hnext
    · exact ih (idx + 1) _ _ hstep
    · exact hstep

lemma fetchPrStats_le (pages : ℕ → CommitPage) :
    (ReviewednessMetric.fetchPrStats pages).1 ≤ (ReviewednessMetric.fetchPrStats pages).2 :=
  fetchPrStatsLoop_le pages 10 0 0 0 (le_refl 0)

/-- C9.  Reviewedness sentinel: with no truthy linked-repository URL the
metric returns exactly the sentinel `-1.0` with the explanatory reason;
with a linked repository it returns a scalar in `[0,1]` — never `-1.0` —
and, on a successful fetch with at least one commit, that scalar is the
fraction of commits introduced via reviewed pull requests (rounded to 3
places); collaborator failures yield `0.0` with an `error` detail
(`details` key `"error"`). -/
theorem C9_theorem :
    (∀ (token : String) (fetch : Except String (ℕ → CommitPage)) (elapsed : ℕ) (b : Bundle),
      (b.repoUrl = none ∨ b.repoUrl = some "") →
      (ReviewednessMetric.compute token fetch elapsed b).value = MValue.fl (-1) ∧
      (ReviewednessMetric.compute token fetch elapsed b).details =
        [("reason", DVal.dstr "No linked GitHub repository")]) ∧
    (∀ (token : String) (fetch : Except String (ℕ → CommitPage)) (elapsed : ℕ) (b : Bundle)
      (url : String), b.repoUrl = some url → url ≠ "" →
      ∃ v, (ReviewednessMetric.compute token fetch elapsed b).value = MValue.fl v ∧
        0 ≤ v ∧ v ≤ 1 ∧ v ≠ -1) ∧
    (∀ (token : String) (pages : ℕ → CommitPage) (elapsed : ℕ) (b : Bundle)
      (url : String) (ow : String × String),
      b.repoUrl = some url → url ≠ "" →
      ReviewednessMetric.parseGithubUrl url = some ow → token ≠ "" →
      (ReviewednessMetric.fetchPrStats pages).2 ≠ 0 →
      (ReviewednessMetric.compute token (Except.ok pages) elapsed b).value =
        MValue.fl (pyRound 3 (((ReviewednessMetric.fetchPrStats pages).1 : ℚ) /
          ((ReviewednessMetric.fetchPrStats pages).2 : ℚ)))) := by
  refine ⟨?_, ?_, ?_⟩
  · intro token fetch elapsed b hurl
    rcases hurl with h | h <;> rw [ReviewednessMetric.compute.eq_def, h] <;> exact ⟨rfl, rfl⟩
  · intro token fetch elapsed b url hurl hne
    rw [ReviewednessMetric.compute.eq_def, hurl]
    dsimp only
    rw [if_neg hne]
    cases hp : ReviewednessMetric.parseGithubUrl url with
    | none => exact ⟨0, rfl, by norm_num⟩
    | some ow =>
      dsimp only
      by_cases htok : token = ""
      · rw [if_pos htok]; exact ⟨0, rfl, by norm_num⟩
      · rw [if_neg htok]
        cases fetch with
        | error e => exact ⟨0, rfl, by norm_num⟩
        | ok pages =>
          dsimp only
          by_cases hz : (ReviewednessMetric.fetchPrStats pages).2 = 0
          · rw [if_pos hz]; exact ⟨0, rfl, by norm_num⟩
          · rw [if_neg hz]
            set pt := ReviewednessMetric.fetchPrStats pages with hpt
            have hle : pt.1 ≤ pt.2 := fetchPrStats_le pages
            have hpos : (0 : ℚ) < (pt.2 : ℚ) := by
              have : 0 < pt.2 := Nat.pos_of_ne_zero hz
              exact_mod_cast this
            have h0 : 0 ≤ ((pt.1 : ℚ) / (pt.2 : ℚ)) :=
              div_nonneg (by positivity) hpos.le
            have h1 : ((pt.1 : ℚ) / (pt.2 : ℚ)) ≤ 1 := by
              rw [div_le_one hpos]
              exact_mod_cast hle
            refine ⟨pyRound 3 ((pt.1 : ℚ) / (pt.2 : ℚ)), rfl,
              pyRound_nonneg _ _ h0, pyRound_le_one _ _ h1, ?_⟩
            intro hcon
            have := pyRound_nonneg 3 ((pt.1 : ℚ) / (pt.2 : ℚ)) h0
            rw [hcon] at this
            norm_num at this
  · intro token pages elapsed b url ow hurl hne hp htok hz
    rw [ReviewednessMetric.compute.eq_def, hurl]
    dsimp only
    rw [if_neg hne, hp]
    dsimp only
    rw [if_neg htok, if_neg hz]

/-- A bundle with a linked GitHub repository. -/
def bundleRepo : Bundle :=
  { hf_metadata := none,
    repo_metadata := some { repo_url := some "https://github.com/o/r" },
    artifact_id := none }

/-- Witness for C9: the sentinel clause at a bundle with no repository
section, and the `[0,1]` clause at a bundle with a linked repository and a
one-page fetch. -/
theorem C9_witness :
    ((ReviewednessMetric.compute "tok" (Except.error "boom") 0 emptyBundle).value =
        MValue.fl (-1) ∧
      (ReviewednessMetric.compute "tok" (Except.error "boom") 0 emptyBundle).details =
        [("reason", DVal.dstr "No linked GitHub repository")]) ∧
    ∃ v, (ReviewednessMetric.compute "tok"
        (Except.ok (fun _ => { nodes := [{ hasPR := true, reviewCount := 1 }], hasNext := false }))
        0 bundleRepo).value = MValue.fl v ∧ 0 ≤ v ∧ v ≤ 1 ∧ v ≠ -1 :=
  ⟨C9_theorem.1 "tok" (Except.error "boom") 0 emptyBundle (Or.inl rfl),
   C9_theorem.2.1 "tok"
      (Except.ok (fun _ => { nodes := [{ hasPR := true, reviewCount := 1 }], hasNext := false }))
      0 bundleRepo "https://github.com/o/r" rfl (by decide)⟩

/-- C2.  Failure isolation in the evaluator (modelled from the spec, since
`concurrency.py` is not in the snapshot): for every bundle and every list
of N submitted metrics, `compute_all_metrics` returns exactly one
`MetricResult` per submitted metric — N results, the i-th belonging to the
i-th metric — and a raising metric yields exactly its single error-marked
placeholder; no exception crosses the boundary (the evaluator is a total
function by construction). -/
theorem C2_theorem (metadata : Bundle) (metrics : List SubmittedMetric) (mw : ℕ) :
    (compute_all_metrics metadata metrics mw).length = metrics.length ∧
    ∀ (i : ℕ), i < metrics.length → ∀ m, metrics[i]? = some m →
      ((∀ r, m.compute metadata = Except.ok r →
          (compute_all_metrics metadata metrics mw)[i]? = some r) ∧
       (∀ e, m.compute metadata = Except.error e →
          (compute_all_metrics metadata metrics mw)[i]? =
            some (errorPlaceholder m.name e))) := by
  refine ⟨List.length_map _ _, ?_⟩
  intro i hi m hm
  constructor
  · intro r hr
    rw [compute_all_metrics, List.getElem?_map, hm]
    simp [hr]
  · intro e he
    rw [compute_all_metrics, List.getElem?_map, hm]
    simp [he]

/-- A metric that computes successfully. -/
def goodMetric : SubmittedMetric :=
  { name := "good",
    compute := fun _ => Except.ok
      { name := "good", value := MValue.fl 1, details := [], latency_ms := 2 } }

/-- A metric whose `compute` always raises. -/
def badMetric : SubmittedMetric :=
  { name := "bad", compute := fun _ => Except.error "boom" }

/-- Witness for C2: a two-metric batch in which the second metric raises
still yields exactly two results — the first metric's own result and the
error placeholder for the raiser. -/
theorem C2_witness :
    (compute_all_metrics emptyBundle [goodMetric, badMetric] 4).length =
      ([goodMetric, badMetric] : List SubmittedMetric).length ∧
    (compute_all_metrics emptyBundle [goodMetric, badMetric] 4)[0]? =
      some { name := "good", value := MValue.fl 1, details := [], latency_ms := 2 } ∧
    (compute_all_metrics emptyBundle [goodMetric, badMetric] 4)[1]? =
      some (errorPlaceholder "bad" "boom") :=
  ⟨(C2_theorem emptyBundle [goodMetric, badMetric] 4).1,
   ((C2_theorem emptyBundle [goodMetric, badMetric] 4).2 0 (by decide) goodMetric rfl).1 _ rfl,
   ((C2_theorem emptyBundle [goodMetric, badMetric] 4).2 1 (by decide) badMetric rfl).2 "boom" rfl⟩

/-- C10.  The scoring engine requires `GITHUB_TOKEN` unconditionally at
load time: evaluating the module-level initialization of
`src/reviewedness.py` — which importing the module (and hence
`cli.py`'s/`app.py`'s registry construction, which import it) performs —
fails with a `RuntimeError` whenever `GITHUB_TOKEN` is absent from the
(post-`load_dotenv`) environment, regardless of any bundle or metric, and
succeeds exactly when the variable is set. -/
theorem C10_theorem :
    (∀ env : String → Option String, env "GITHUB_TOKEN" = none →
      reviewednessModuleInit env = Except.error
        "RuntimeError: GITHUB_TOKEN variable is missing, and you kinda need that.") ∧
    (∀ (env : String → Option String) (t : String), env "GITHUB_TOKEN" = some t →
      reviewednessModuleInit env = Except.ok t) := by
  constructor
  · intro env h
    rw [reviewednessModuleInit.eq_def, h]
  · intro env t h
    rw [reviewednessModuleInit.eq_def, h]

/-- Witness for C10: the empty environment makes the import fail; an
environment carrying a token makes it succeed. -/
theorem C10_witness :
    reviewednessModuleInit (fun _ => none) = Except.error
      "RuntimeError: GITHUB_TOKEN variable is missing, and you kinda need that." ∧
    reviewednessModuleInit (fun _ => some "ghp_x") = Except.ok "ghp_x" :=
  ⟨C10_theorem.1 (fun _ => none) rfl, C10_theorem.2 (fun _ => some "ghp_x") "ghp_x" rfl⟩
